import Mathlib

/-!
Verification of the resumable parallel bulk-retrieval engine in
`src/fasttext/download.py`.

The Python source is shallowly embedded: every effectful dependency of a
function (filesystem contents, directory creation, the HTTP client, file
writes, `pandas.read_parquet`, per-process crashes) is passed in explicitly
as data, and the function bodies are translated line by line into pure Lean
functions over that data.  Machine details that no claim touches (actual
byte values on the wire are kept as lists of naturals, wall-clock time and
progress bars are dropped) are noted at each definition.
-/

set_option autoImplicit false

namespace Oprover

/-! ### Path helpers

`os.path.basename` / `os.path.dirname` / `os.path.join` restricted to the
slash-separated relative paths the source passes them (no drive letters,
no `..` normalisation — `os.path` performs none either). -/

/-- Split a character list at every occurrence of `c` (the separators
are consumed; `n` separators yield `n+1` chunks, so a trailing
separator yields a trailing empty chunk). -/
def splitOnChar (c : Char) : List Char → List (List Char)
  | [] => [[]]
  | d :: ds =>
    if d = c then [] :: splitOnChar c ds
    else
      match splitOnChar c ds with
      | [] => [[d]]
      | l :: ls => (d :: l) :: ls

/-- Join chunks with the separator `c` between them (inverse of
`splitOnChar` on separator-free chunks). -/
def joinWithChar (c : Char) (ls : List (List Char)) : List Char :=
  (ls.intersperse [c]).flatten

/-- Embedding of `os.path.basename`: the part after the last `/`. -/
def basename (s : String) : String :=
  ⟨(splitOnChar '/' s.data).getLastD []⟩

/-- Embedding of `os.path.dirname`: everything before the last `/`
(empty when there is no `/`). -/
def dirname (s : String) : String :=
  ⟨joinWithChar '/' (splitOnChar '/' s.data).dropLast⟩

/-- Embedding of `os.path.join a b` for the arguments the source builds:
if `b` is absolute it wins; otherwise it is appended with a single
separator (none added when `a` already ends in `/` or is empty). -/
def pyJoin (a b : String) : String :=
  if b.data.head? = some '/' then b
  else if a = "" then b
  else if a.data.getLast? = some '/' then a ++ b
  else a ++ "/" ++ b

/-! ### ObjectFetcher (`download_file_from_github`, lines 29–87) -/

/-- The dictionary returned by `download_file_from_github`: keys
`success`, `filename`, `size`, `error`.  (The source dict has exactly
these four keys — in particular there is no `skipped` key.) -/
structure FetchResult where
  success : Bool
  filename : Option String
  size : Nat
  error : Option String
  deriving Repr, DecidableEq

/-- What `requests.get` can come back with: a response carrying an HTTP
status and a body (bytes as naturals), or a raised exception (transport
error / timeout), carried as its `str(e)` message. -/
inductive NetReply where
  /-- A response object with `status_code` and `content`. -/
  | reply (status : Nat) (content : List Nat)
  /-- `requests.get` raised (connection error, timeout, ...). -/
  | exn (msg : String)
  deriving Repr, DecidableEq

/-- The effect environment of one fetch.  Each field answers one kind of
system call the Python body makes, as a pure oracle. -/
structure FetchEnv where
  /-- `os.path.exists` / `os.path.getsize`: existing file contents by path
  (`none` = the path does not exist). -/
  fs : String → Option (List Nat)
  /-- `Path(dir).mkdir(parents=True, exist_ok=True)`: `some msg` when the
  call raises with message `msg`, `none` when it succeeds. -/
  mkdirErr : String → Option String
  /-- `requests.get(url, timeout=t)` keyed by url and timeout seconds. -/
  net : String → Nat → NetReply
  /-- `open(path,'wb').write(...)`: `some msg` when writing raises. -/
  writeErr : String → Option String

/-- The failure dictionary built in the `except` arm (lines 81–87). -/
def fetchFailure (msg : String) : FetchResult :=
  { success := false, filename := none, size := 0, error := some msg }

/-- The timeout constant the source passes to `requests.get` (line 65). -/
def requestTimeout : Nat := 30

/-- Embedding of `download_file_from_github(repo, commit_id, rel_path,
output_dir)`.  Returns the result dictionary paired with the number of
HTTP requests issued (0 or 1), so that "no network call" is a provable
statement.  Every `raise` inside the `try` block lands in the `except`
arm, which returns `fetchFailure (str e)`; `response.raise_for_status()`
raises exactly when `status_code` is in 400..599, with a message that
mentions the status. -/
def downloadFileFromGithub (env : FetchEnv)
    (repo commitId relPath outputDir : String) : FetchResult × Nat :=
  let url := "https://raw.githubusercontent.com/" ++ repo ++ "/" ++ commitId
      ++ "/" ++ relPath
  let fileDir := pyJoin outputDir (dirname relPath)
  match env.mkdirErr fileDir with
  | some e => (fetchFailure e, 0)
  | none =>
    let filename := basename relPath
    let outputPath := pyJoin fileDir filename
    match env.fs outputPath with
    | some bytes =>
      ({ success := true, filename := some filename, size := bytes.length,
         error := none }, 0)
    | none =>
      match env.net url requestTimeout with
      | .exn e => (fetchFailure e, 1)
      | .reply status content =>
        if 400 ≤ status ∧ status ≤ 599 then
          (fetchFailure ("HTTP error " ++ toString status ++ " for url " ++ url), 1)
        else
          match env.writeErr outputPath with
          | some e => (fetchFailure e, 1)
          | none =>
            ({ success := true, filename := some filename,
               size := content.length, error := none }, 1)

/-! ### WorkerPool tier (`process_download_batch`, lines 348–405)

`download_single_file_worker` returns the `download_file_from_github`
dictionary augmented with index/repo/path echo fields; the counting loops
only consult `success`, `filename` and `size`, so the per-task outcome is
carried as a `FetchResult` produced by an oracle `res` (one deterministic
result per task — the thread pool's completion order does not change the
sums, which claim C7 proves). -/

/-- One element of the `download_tasks` list: the tuple
`(repo, commit_id, rel_path, current_dir, idx)` built at lines 459–470. -/
structure DownloadTask where
  repo : String
  commitId : String
  relPath : String
  outputDir : String
  idx : Nat
  deriving Repr, DecidableEq

/-- The three counters every batch loop maintains:
`successful_downloads`, `failed_downloads`, `total_size`. -/
structure BatchStats where
  successfulDownloads : Nat
  failedDownloads : Nat
  totalSize : Nat
  deriving Repr, DecidableEq

def statsZero : BatchStats := ⟨0, 0, 0⟩

/-- Component-wise sum of counters (the `+=` aggregation steps). -/
def statsAdd (a b : BatchStats) : BatchStats :=
  ⟨a.successfulDownloads + b.successfulDownloads,
   a.failedDownloads + b.failedDownloads,
   a.totalSize + b.totalSize⟩

/-- Sum a list of counter triples (the order-independent aggregation the
`as_completed` collection loops perform). -/
def statsSum (l : List BatchStats) : BatchStats :=
  l.foldl statsAdd statsZero

/-- A crash oracle under which exactly the worker process with id `j`
raises (with message `msg`) and every other slice runs normally. -/
def crashOnly (j : Nat) (msg : String) : Nat → Option String :=
  fun i => if i = j then some msg else none

/-- Python truthiness of `result['filename']`: `None` and `''` are falsy. -/
def pyTruthyStr : Option String → Bool
  | none => false
  | some s => s ≠ ""

/-- The guard `result['success'] and result['filename']` of the counting
loops (Python truthiness on both operands). -/
def workerOk (r : FetchResult) : Bool :=
  r.success && pyTruthyStr r.filename

/-- One iteration of the `as_completed` counting loop (lines 374–378 and
the identical loops at 294–298 and 500–504):
`if result['success'] and result['filename']: successful += 1; size += ...
else: failed += 1`. -/
def batchStep (s : BatchStats) (r : FetchResult) : BatchStats :=
  if workerOk r then
    { s with successfulDownloads := s.successfulDownloads + 1,
             totalSize := s.totalSize + r.size }
  else
    { s with failedDownloads := s.failedDownloads + 1 }

/-- Embedding of `process_download_batch(tasks, max_workers, process_id,
checkpoint_key)`.  `crash = some msg` models the `except` arm at lines
398–405 (the whole handler raised): it returns all-zero counters and no
error indication.  Otherwise every task is submitted and counted. -/
def processDownloadBatch (tasks : List DownloadTask)
    (res : DownloadTask → FetchResult) (crash : Option String) : BatchStats :=
  match crash with
  | some _ => statsZero
  | none => (tasks.map res).foldl batchStep statsZero

/-! ### ProcessPool tier: data slicing
(`process_parquet_file_with_data_slicing`, lines 407–590) -/

/-- `math.ceil(len(download_tasks) / max_processes)` (line 526), for the
natural arguments the source uses. -/
def tasksPerProcess (n p : Nat) : Nat := (n + p - 1) / p

/-- The `process_args` list built at lines 534–546: for each
`i in range(max_processes)` with `start_task = i * tasks_per_process`
and `end_task = min(start_task + tasks_per_process, len)`, the pair
`(i, download_tasks[start_task:end_task])`, kept only when
`start_task < len`. -/
def processArgs (tasks : List DownloadTask) (p : Nat) :
    List (Nat × List DownloadTask) :=
  let n := tasks.length
  let t := tasksPerProcess n p
  (List.range p).filterMap (fun i =>
    let s := i * t
    let e := min (s + t) n
    if s < n then some (i, (tasks.drop s).take (e - s)) else none)

/-- The parent's aggregation loop over `as_completed(future_to_process)`
(lines 552–558), starting from the counters already initialised to
`(start_index, 0, 0)`; each per-process crash is governed by `crash`
keyed by process id. -/
def multiProcessStats (init : BatchStats) (tasks : List DownloadTask)
    (p : Nat) (res : DownloadTask → FetchResult)
    (crash : Nat → Option String) : BatchStats :=
  (processArgs tasks p).foldl
    (fun acc a => statsAdd acc (processDownloadBatch a.2 res (crash a.1))) init

/-! ### PartitionProcessor
(`process_parquet_file_with_data_slicing`, lines 407–590) -/

/-- One row of the manifest partition (`df.iterrows()` with columns
`repo`, `commit_id`, `rel_path`). -/
structure ManifestRow where
  repo : String
  commitId : String
  relPath : String
  deriving Repr, DecidableEq

/-- The result dictionary of `process_parquet_file_with_data_slicing`
(and of `process_single_parquet_file_mp`). -/
structure PartitionResult where
  filename : String
  totalFiles : Nat
  successfulDownloads : Nat
  failedDownloads : Nat
  totalSize : Nat
  success : Bool
  error : Option String
  deriving Repr, DecidableEq

/-- `os.path.splitext(name)[0]`: the name with its last `.`-extension
removed (dot subtleties for names with no dot: unchanged). -/
def stem (s : String) : String :=
  let parts := splitOnChar '.' s.data
  if parts.length ≤ 1 then s else ⟨joinWithChar '.' parts.dropLast⟩

/-- The `download_tasks` list (lines 459–470): rows with index `idx`,
skipping `idx < start_index`, each paired with `current_dir`. -/
def buildDownloadTasks (rows : List ManifestRow) (currentDir : String)
    (startIndex : Nat) : List DownloadTask :=
  rows.enum.filterMap (fun p =>
    if p.1 < startIndex then none
    else some ⟨p.2.repo, p.2.commitId, p.2.relPath, currentDir, p.1⟩)

/-- Embedding of `process_parquet_file_with_data_slicing(file_path,
output_dir, max_workers, max_processes, checkpoint_data, group_id,
file_index)`.

* `load` is the outcome of `pd.read_parquet(file_path)` — the realistic
  raiser inside the `try` block; a raise lands in the `except` arm at
  lines 580–590 which returns `success=False` with `str(e)`.
* `startIndex` is the `completed_files` counter recovered from the
  checkpoint (lines 437–443); the counters start from
  `successful_downloads = start_index` (line 454).
* In single-process mode (line 485) the thread-pool loop counts every
  task; in multi-process mode the slices of `processArgs` are summed,
  with `crash` giving each slice's possible process-level failure.
* Both non-exception exits return `success := true` (lines 472–482 and
  570–578) — the failed counter is not consulted. -/
def processParquetFileWithDataSlicing (load : Except String (List ManifestRow))
    (filePath outputDir : String) (startIndex : Nat) (maxProcesses : Nat)
    (res : DownloadTask → FetchResult) (crash : Nat → Option String) :
    PartitionResult :=
  match load with
  | .error e =>
    { filename := basename filePath, totalFiles := 0,
      successfulDownloads := 0, failedDownloads := 0, totalSize := 0,
      success := false, error := some e }
  | .ok rows =>
    let totalFiles := rows.length
    let currentDir := pyJoin outputDir (stem (basename filePath))
    let tasks := buildDownloadTasks rows currentDir startIndex
    let init : BatchStats := ⟨startIndex, 0, 0⟩
    if tasks = [] then
      { filename := basename filePath, totalFiles := totalFiles,
        successfulDownloads := startIndex, failedDownloads := 0,
        totalSize := 0, success := true, error := none }
    else
      let stats :=
        if maxProcesses = 1 then (tasks.map res).foldl batchStep init
        else multiProcessStats init tasks maxProcesses res crash
      { filename := basename filePath, totalFiles := totalFiles,
        successfulDownloads := stats.successfulDownloads,
        failedDownloads := stats.failedDownloads,
        totalSize := stats.totalSize, success := true, error := none }

/-! ### GroupController (`download_group_files_mp`, lines 592–732) -/

/-- Normalise one Python slice index against a list length `n`:
negative indices count from the end, then clamp into `[0, n]`. -/
def pyNorm (n : Nat) (i : Int) : Nat :=
  if i < 0 then (max 0 (i + n)).toNat else (min i n).toNat

/-- Python list slicing `xs[a:b]` (step 1) with possibly negative
bounds, as used at line 629 with `parquet_files[start:end]`. -/
def pySlice {α : Type} (xs : List α) (a b : Int) : List α :=
  let a' := pyNorm xs.length a
  let b' := pyNorm xs.length b
  (xs.drop a').take (b' - a')

/-- Python's string comparison: lexicographic on code points. -/
def lexLe : List Char → List Char → Bool
  | [], _ => true
  | _ :: _, [] => false
  | a :: as, b :: bs => if a < b then true else if b < a then false else lexLe as bs

/-- `parquet_files.sort()` (line 609): lexicographic string sort. -/
def sortFiles (files : List String) : List String :=
  files.mergeSort (fun a b => lexLe a.data b.data)

/-- `files_per_group = 50` (line 616). -/
def filesPerGroup : Nat := 50

/-- `total_groups = math.ceil(total_files / files_per_group)` (line 619). -/
def totalGroups (totalFiles : Nat) : Nat :=
  (totalFiles + filesPerGroup - 1) / filesPerGroup

/-- Lines 626–629: `start = group_id * 50`, `end = min(start + 50,
total)`, `current_group_files = parquet_files[start:end]` — all in
`Int` because `group_id` may be negative. -/
def currentGroupFiles (sorted : List String) (groupId : Int) : List String :=
  pySlice sorted (groupId * filesPerGroup)
    (min (groupId * filesPerGroup + filesPerGroup) (sorted.length : Int))

/-- Lines 660–666: keep the files whose basename is not in the loaded
completed set, preserving order. -/
def remainingFiles (sorted : List String) (completedFiles : List String)
    (groupId : Int) : List String :=
  (currentGroupFiles sorted groupId).filter
    (fun f => !(completedFiles.contains (basename f)))

/-- The per-partition loop at lines 682–712: on `result['success']` add
the counters to the running totals and append `basename file` to the
completed-files record; on failure only log.  Returns the appended
filenames (in append order) and the totals. -/
def runGroupLoop (remaining : List String)
    (presult : Nat → String → PartitionResult) : List String × BatchStats :=
  remaining.enum.foldl (fun acc fi =>
    let r := presult fi.1 fi.2
    if r.success then
      (acc.1 ++ [basename fi.2],
       statsAdd acc.2 ⟨r.successfulDownloads, r.failedDownloads, r.totalSize⟩)
    else acc) ([], statsZero)

/-- Observable outcome of one `download_group_files_mp` invocation. -/
inductive RunOutcome where
  /-- Line 611: no parquet files found, return. -/
  | noParquetFiles
  /-- Lines 621–623: `group_id >= total_groups`, error message, return. -/
  | groupOutOfRange
  /-- Lines 668–670: every file of the group already recorded, return. -/
  | alreadyComplete
  /-- The main loop ran over `processed`; `appended` were recorded
  complete; `totals` are the summed counters. -/
  | ran (processed appended : List String) (totals : BatchStats)
  deriving Repr, DecidableEq

/-- Embedding of `download_group_files_mp(input_dir, output_dir,
group_id, max_workers, max_processes)`.  The directory listing
(`glob`), the loaded completed set and the per-file partition outcomes
(`process_parquet_file_with_data_slicing`, called with the file's index
in `remaining` and its path) enter as data. -/
def downloadGroupFilesMp (parquetFiles completedFiles : List String)
    (groupId : Int) (presult : Nat → String → PartitionResult) : RunOutcome :=
  let sorted := sortFiles parquetFiles
  if sorted = [] then .noParquetFiles
  else if (totalGroups sorted.length : Int) ≤ groupId then .groupOutOfRange
  else
    let remaining := remainingFiles sorted completedFiles groupId
    if remaining = [] then .alreadyComplete
    else
      let lp := runGroupLoop remaining presult
      .ran remaining lp.1 lp.2

/-! ### CompletionRecord (`load_completed_files` lines 181–205,
`save_completed_file` lines 207–219)

The record file's content is modelled as a `List Char`.  Reading a text
file line by line and stripping each line is `splitNl` followed by
`pyStrip`; appending in mode `'a'` is concatenation. -/

/-- The whitespace characters `str.strip()` removes (the ASCII ones;
the filenames at play are parquet basenames). -/
def pyIsSpace (c : Char) : Bool :=
  c = ' ' ∨ c = '\t' ∨ c = '\n' ∨ c = '\r' ∨
  c = Char.ofNat 11 ∨ c = Char.ofNat 12

/-- `line.strip()`: drop whitespace from both ends. -/
def pyStrip (l : List Char) : List Char :=
  ((l.dropWhile pyIsSpace).reverse.dropWhile pyIsSpace).reverse

/-- Embedding of `load_completed_files`: `none` means the record file
does not exist (the function returns an empty set, line 200); otherwise
the file is split into lines (iterating a Python text file yields each
newline-terminated chunk, whose terminator the subsequent `strip()`
removes, plus a final unterminated chunk — after stripping, that stream
of lines equals `splitOnChar` applied at newlines), each line is
stripped, and the non-empty ones are collected.  The Python `set` is
represented by the list of kept lines; claims speak of membership
only. -/
def loadCompletedFiles (content : Option (List Char)) : List (List Char) :=
  match content with
  | none => []
  | some file =>
    ((splitOnChar '\n' file).map pyStrip).filter (fun l => l ≠ [])

/-- Embedding of `save_completed_file`: append `f"{name}\n"` to the
record file's content. -/
def saveCompletedFile (file : List Char) (name : List Char) : List Char :=
  file ++ name ++ ['\n']

/-- The filenames claim C10 quantifies over: non-empty, no newline, no
leading or trailing whitespace (the latter two said as `strip`-fixedness). -/
def goodFilename (name : List Char) : Prop :=
  name ≠ [] ∧ '\n' ∉ name ∧ pyStrip name = name

instance (name : List Char) : Decidable (goodFilename name) := by
  unfold goodFilename; infer_instance

/-! ## Counter algebra -/

theorem statsAdd_zero (a : BatchStats) : statsAdd a statsZero = a := by
  simp [statsAdd, statsZero]

theorem zero_statsAdd (a : BatchStats) : statsAdd statsZero a = a := by
  simp [statsAdd, statsZero]

theorem statsAdd_comm (a b : BatchStats) : statsAdd a b = statsAdd b a := by
  simp only [statsAdd, BatchStats.mk.injEq]
  omega

theorem statsAdd_assoc (a b c : BatchStats) :
    statsAdd (statsAdd a b) c = statsAdd a (statsAdd b c) := by
  simp only [statsAdd, BatchStats.mk.injEq]
  omega

theorem foldl_statsAdd_eq (l : List BatchStats) (init : BatchStats) :
    l.foldl statsAdd init = statsAdd init (statsSum l) := by
  induction l generalizing init with
  | nil => simp [statsSum, statsAdd_zero]
  | cons b l ih =>
    simp only [statsSum, List.foldl_cons, zero_statsAdd] at *
    rw [ih (statsAdd init b), ih b, statsAdd_assoc]

theorem statsSum_cons (a : BatchStats) (l : List BatchStats) :
    statsSum (a :: l) = statsAdd a (statsSum l) := by
  simp only [statsSum, List.foldl_cons, zero_statsAdd]
  rw [foldl_statsAdd_eq]
  rfl

/-! ## Batch counting -/

theorem countP_not_add {α : Type} (p : α → Bool) (l : List α) :
    l.countP p + l.countP (fun a => !p a) = l.length := by
  induction l with
  | nil => simp
  | cons a l ih => by_cases h : p a <;> simp [List.countP_cons, h] <;> omega

/-- Closed form of the counting loop: starting from `init`, it adds one
success per `workerOk` result (with its size) and one failure per other
result. -/
theorem foldl_batchStep_closed (l : List FetchResult) (init : BatchStats) :
    l.foldl batchStep init =
      ⟨init.successfulDownloads + l.countP workerOk,
       init.failedDownloads + l.countP (fun r => !workerOk r),
       init.totalSize + ((l.filter workerOk).map (fun r => r.size)).sum⟩ := by
  induction l generalizing init with
  | nil => simp
  | cons r l ih =>
    rw [List.foldl_cons, ih]
    unfold batchStep
    by_cases h : workerOk r <;>
      simp [h, List.countP_cons, List.filter_cons] <;> omega

theorem batchStep_eq_add (s : BatchStats) (r : FetchResult) :
    batchStep s r = statsAdd s (batchStep statsZero r) := by
  unfold batchStep
  split <;> simp [statsAdd, statsZero]

theorem foldl_batchStep_eq (l : List FetchResult) (init : BatchStats) :
    l.foldl batchStep init = statsAdd init (l.foldl batchStep statsZero) := by
  rw [foldl_batchStep_closed, foldl_batchStep_closed]
  simp [statsAdd, statsZero]

theorem batchFold_append (l1 l2 : List FetchResult) :
    (l1 ++ l2).foldl batchStep statsZero =
      statsAdd (l1.foldl batchStep statsZero) (l2.foldl batchStep statsZero) := by
  rw [List.foldl_append, foldl_batchStep_eq]

/-- Claim C5 (amended): `ObjectFetcher.fetch` never raises: the
embedding is a total function into `FetchResult` (every system-call
outcome, including transport errors, the fixed `requestTimeout = 30`
timeout expiring, error responses and local write errors, is consumed
as data).  Every outcome is either a success with `error = None` or the
`except`-arm value `fetchFailure e` with the error captured as a
string; each individual failure mode — directory-creation error, raised
request (transport error / timeout), `raise_for_status` on a **4xx/5xx**
response, local write error — produces exactly that captured-failure
value; and a surfaced response with a status outside 400..599 (in
particular a non-2xx status such as 304, which `raise_for_status` does
not raise on) is written out and reported as a success — not as a
failure, contrary to the claim's "non-2xx response" wording (see the
counterexample theorem). -/
theorem fetch_never_raises (env : FetchEnv)
    (repo commitId relPath outputDir : String) :
    (((downloadFileFromGithub env repo commitId relPath outputDir).1.success = true ∧
      (downloadFileFromGithub env repo commitId relPath outputDir).1.error = none) ∨
     ∃ e, (downloadFileFromGithub env repo commitId relPath outputDir).1
        = fetchFailure e) ∧
    (∀ e, env.mkdirErr (pyJoin outputDir (dirname relPath)) = some e →
      (downloadFileFromGithub env repo commitId relPath outputDir).1
        = fetchFailure e) ∧
    (env.mkdirErr (pyJoin outputDir (dirname relPath)) = none →
     env.fs (pyJoin (pyJoin outputDir (dirname relPath)) (basename relPath))
        = none →
     (∀ e, env.net ("https://raw.githubusercontent.com/" ++ repo ++ "/"
          ++ commitId ++ "/" ++ relPath) requestTimeout = .exn e →
        (downloadFileFromGithub env repo commitId relPath outputDir).1
          = fetchFailure e) ∧
     (∀ status content,
        env.net ("https://raw.githubusercontent.com/" ++ repo ++ "/"
          ++ commitId ++ "/" ++ relPath) requestTimeout
            = .reply status content →
        400 ≤ status ∧ status ≤ 599 →
        (downloadFileFromGithub env repo commitId relPath outputDir).1
          = fetchFailure ("HTTP error " ++ toString status ++ " for url "
              ++ ("https://raw.githubusercontent.com/" ++ repo ++ "/"
                ++ commitId ++ "/" ++ relPath))) ∧
     (∀ status content e,
        env.net ("https://raw.githubusercontent.com/" ++ repo ++ "/"
          ++ commitId ++ "/" ++ relPath) requestTimeout
            = .reply status content →
        ¬ (400 ≤ status ∧ status ≤ 599) →
        env.writeErr (pyJoin (pyJoin outputDir (dirname relPath))
          (basename relPath)) = some e →
        (downloadFileFromGithub env repo commitId relPath outputDir).1
          = fetchFailure e) ∧
     (∀ status content,
        env.net ("https://raw.githubusercontent.com/" ++ repo ++ "/"
          ++ commitId ++ "/" ++ relPath) requestTimeout
            = .reply status content →
        ¬ (400 ≤ status ∧ status ≤ 599) →
        env.writeErr (pyJoin (pyJoin outputDir (dirname relPath))
          (basename relPath)) = none →
        (downloadFileFromGithub env repo commitId relPath outputDir).1
          = { success := true, filename := some (basename relPath),
              size := content.length, error := none })) := by
  refine ⟨?_, ?_, ?_⟩
  · unfold downloadFileFromGithub
    dsimp only
    repeat' split
    all_goals first
      | exact Or.inl ⟨rfl, rfl⟩
      | exact Or.inr ⟨_, rfl⟩
  · intro e he
    unfold downloadFileFromGithub
    dsimp only
    rw [he]
  · intro hmk hfs
    refine ⟨?_, ?_, ?_, ?_⟩
    · intro e hnet
      unfold downloadFileFromGithub
      dsimp only
      rw [hmk, hfs, hnet]
    · intro status content hnet hst
      unfold downloadFileFromGithub
      dsimp only
      rw [hmk, hfs, hnet]
      dsimp only
      rw [if_pos hst]
    · intro status content e hnet hst hw
      unfold downloadFileFromGithub
      dsimp only
      rw [hmk, hfs, hnet]
      dsimp only
      rw [if_neg hst, hw]
    · intro status content hnet hst hw
      unfold downloadFileFromGithub
      dsimp only
      rw [hmk, hfs, hnet]
      dsimp only
      rw [if_neg hst, hw]

/-- Claim C5, counterexample to "on any ... non-2xx response ... it
returns a result value with success = false": a surfaced `304` reply —
a non-2xx status, which `requests` does not follow and
`raise_for_status` (4xx/5xx only) does not raise on — is written to the
destination and returned as `{success: True, error: None}` after one
request, not as a failure. -/
theorem fetch_304_not_failed :
    downloadFileFromGithub
      ⟨fun _ => none, fun _ => none, fun _ _ => .reply 304 [7, 8],
        fun _ => none⟩ "r" "c" "a/b.txt" "/out"
      = ({ success := true, filename := some "b.txt", size := 2,
           error := none }, 1) := by
  rfl

theorem fetch_never_raises_witness :
    (downloadFileFromGithub
      ⟨fun _ => none, fun _ => none,
        fun _ _ => .exn "ConnectTimeout after 30s", fun _ => none⟩
      "r" "c" "a/b.txt" "/out").1
      = fetchFailure "ConnectTimeout after 30s" :=
  ((fetch_never_raises
      ⟨fun _ => none, fun _ => none,
        fun _ _ => .exn "ConnectTimeout after 30s", fun _ => none⟩
      "r" "c" "a/b.txt" "/out").2.2 rfl rfl).1
    "ConnectTimeout after 30s" rfl

/-- Claim C6: in the thread tier a single task's failure only increments
the failed counter: every task in the list is counted exactly once
(succeeded when its result satisfies the `success and filename` guard,
failed otherwise), so `succeeded + failed` equals the number of tasks
and no failure terminates the batch early. -/
theorem batch_failure_isolation (tasks : List DownloadTask)
    (res : DownloadTask → FetchResult) :
    (processDownloadBatch tasks res none).successfulDownloads
        = (tasks.map res).countP workerOk ∧
    (processDownloadBatch tasks res none).failedDownloads
        = (tasks.map res).countP (fun r => !workerOk r) ∧
    (processDownloadBatch tasks res none).successfulDownloads
        + (processDownloadBatch tasks res none).failedDownloads
        = tasks.length := by
  have h := foldl_batchStep_closed (tasks.map res) statsZero
  have hsum := countP_not_add workerOk (tasks.map res)
  have hpd : processDownloadBatch tasks res none
      = (tasks.map res).foldl batchStep statsZero := rfl
  rw [hpd, h]
  dsimp only [statsZero]
  simp only [List.length_map] at hsum
  exact ⟨Nat.zero_add _, Nat.zero_add _, by omega⟩

/-- Claim C7: batch statistics form a sum — for every decomposition of a
task list into slices, the component-wise sum of the per-slice counters
equals the counters of the concatenated (unsliced) list, and the
counter addition is commutative and associative, so the result is
independent of summation order. -/
theorem stats_are_a_sum (slices : List (List DownloadTask))
    (res : DownloadTask → FetchResult) :
    statsSum (slices.map (fun sl => processDownloadBatch sl res none))
        = processDownloadBatch slices.flatten res none ∧
    (∀ a b, statsAdd a b = statsAdd b a) ∧
    (∀ a b c, statsAdd (statsAdd a b) c = statsAdd a (statsAdd b c)) := by
  refine ⟨?_, statsAdd_comm, statsAdd_assoc⟩
  induction slices with
  | nil => rfl
  | cons sl slices ih =>
    show statsSum (processDownloadBatch sl res none :: _) = _
    rw [statsSum_cons, ih]
    show _ = ((sl ++ slices.flatten).map res).foldl batchStep statsZero
    rw [List.map_append, batchFold_append]
    rfl

/-! ## ObjectFetcher: skip-if-exists -/

/-- Claim C2 (amended): when the destination path already exists (with
any size, and directory creation succeeds), `download_file_from_github`
returns `{success: True, filename, size: size-on-disk, error: None}`
issuing zero HTTP requests, and the outcome is independent of the
network oracle — the existence check runs before any request.  The
returned dictionary carries no `skipped` key (see the counterexample
theorem). -/
theorem fetch_skip_if_exists (env : FetchEnv)
    (repo commitId relPath outputDir : String) (bytes : List Nat)
    (hmk : env.mkdirErr (pyJoin outputDir (dirname relPath)) = none)
    (hfs : env.fs (pyJoin (pyJoin outputDir (dirname relPath)) (basename relPath))
        = some bytes) :
    downloadFileFromGithub env repo commitId relPath outputDir =
      ({ success := true, filename := some (basename relPath),
         size := bytes.length, error := none }, 0) ∧
    ∀ net2 : String → Nat → NetReply,
      downloadFileFromGithub { env with net := net2 } repo commitId relPath
          outputDir
        = downloadFileFromGithub env repo commitId relPath outputDir := by
  constructor
  · unfold downloadFileFromGithub
    dsimp only
    rw [hmk, hfs]
  · intro net2
    unfold downloadFileFromGithub
    dsimp only
    rw [hmk, hfs]

theorem fetch_skip_if_exists_witness :
    downloadFileFromGithub
      ⟨fun _ => some [1, 2, 3], fun _ => none, fun _ _ => .exn "timeout",
        fun _ => none⟩ "r" "c" "a/b.txt" "/out" =
      ({ success := true, filename := some "b.txt", size := 3,
         error := none }, 0) := by
  exact (fetch_skip_if_exists
    ⟨fun _ => some [1, 2, 3], fun _ => none, fun _ _ => .exn "timeout",
      fun _ => none⟩ "r" "c" "a/b.txt" "/out" [1, 2, 3] rfl rfl).1

/-- Claim C2, counterexample to `skipped: true`: the dictionary returned
for an already-existing destination (a skip, 0 requests) is *equal* to
the dictionary returned for a fresh download of the same length (1
request) — the source result has only the keys `success`, `filename`,
`size`, `error`, so no component of it can be the claimed `skipped`
flag distinguishing the two paths. -/
theorem fetch_no_skipped_field :
    (downloadFileFromGithub
      ⟨fun _ => some [1, 2, 3], fun _ => none, fun _ _ => .exn "timeout",
        fun _ => none⟩ "r" "c" "a/b.txt" "/out").1 =
    (downloadFileFromGithub
      ⟨fun _ => none, fun _ => none, fun _ _ => .reply 200 [7, 8, 9],
        fun _ => none⟩ "r" "c" "a/b.txt" "/out").1 := by
  rfl

/-! ## ProcessPool slicing -/

theorem le_mul_tasksPerProcess (n p : Nat) (hp : 1 ≤ p) :
    n ≤ p * tasksPerProcess n p := by
  unfold tasksPerProcess
  have h := Nat.div_add_mod (n + p - 1) p
  have h2 : (n + p - 1) % p < p := Nat.mod_lt _ hp
  omega

theorem one_le_tasksPerProcess (n p : Nat) (hn : 1 ≤ n) (hp : 1 ≤ p) :
    1 ≤ tasksPerProcess n p := by
  unfold tasksPerProcess
  rw [Nat.le_div_iff_mul_le hp]
  omega

/-- The concatenation of the first `k` launched slices is the first
`k * t` tasks. -/
theorem processArgsAux (tasks : List DownloadTask) (t : Nat) (k : Nat) :
    (((List.range k).filterMap (fun i =>
      let s := i * t
      let e := min (s + t) tasks.length
      if s < tasks.length then some (i, (tasks.drop s).take (e - s))
      else none)).map (fun a => a.2)).flatten = tasks.take (k * t) := by
  induction k with
  | zero => simp
  | succ k ih =>
    rw [List.range_succ, List.filterMap_append, List.map_append,
      List.flatten_append, ih]
    by_cases h : k * t < tasks.length
    · simp only [List.filterMap_cons, List.filterMap_nil, if_pos h,
        List.map_cons, List.map_nil, List.flatten_cons, List.flatten_nil,
        List.append_nil]
      have hkt : (k + 1) * t = k * t + t := by ring
      rw [hkt, List.take_add]
      congr 1
      apply List.take_eq_take.mpr
      simp only [List.length_drop]
      omega
    · simp only [List.filterMap_cons, List.filterMap_nil, if_neg h,
        List.map_nil, List.flatten_nil, List.append_nil]
      have hlen : tasks.length ≤ k * t := Nat.le_of_not_lt h
      have hlen2 : tasks.length ≤ (k + 1) * t := by
        calc tasks.length ≤ k * t := hlen
        _ ≤ (k + 1) * t := Nat.mul_le_mul_right t (Nat.le_succ k)
      rw [List.take_of_length_le hlen, List.take_of_length_le hlen2]

/-- Claim C8: for a non-empty task list and `process_budget ≥ 1`, the
process tier launches contiguous slices of `ceil(len/p)` tasks (every
launched slice is non-empty and no longer than `ceil(len/p)`), and
concatenating the launched slices in process-id order reproduces the
original task list — hence every task appears in exactly one slice. -/
theorem process_tier_slicing (tasks : List DownloadTask) (p : Nat)
    (h1 : tasks ≠ []) (hp : 1 ≤ p) :
    ((processArgs tasks p).map (fun a => a.2)).flatten = tasks ∧
    ∀ a ∈ processArgs tasks p,
      a.2 ≠ [] ∧ a.2.length ≤ tasksPerProcess tasks.length p := by
  have hn : 1 ≤ tasks.length := List.length_pos.mpr h1
  have ht : 1 ≤ tasksPerProcess tasks.length p :=
    one_le_tasksPerProcess tasks.length p hn hp
  constructor
  · unfold processArgs
    dsimp only
    rw [processArgsAux tasks (tasksPerProcess tasks.length p) p]
    exact List.take_of_length_le (le_mul_tasksPerProcess tasks.length p hp)
  · intro a ha
    unfold processArgs at ha
    dsimp only at ha
    rw [List.mem_filterMap] at ha
    obtain ⟨i, _, hsome⟩ := ha
    by_cases h : i * tasksPerProcess tasks.length p < tasks.length
    · rw [if_pos h] at hsome
      cases hsome
      constructor
      · apply List.ne_nil_of_length_pos
        simp only [List.length_take, List.length_drop]
        omega
      · simp only [List.length_take, List.length_drop]
        omega
    · rw [if_neg h] at hsome
      cases hsome

theorem process_tier_slicing_witness :
    ((processArgs [⟨"r", "c", "p1", "o", 0⟩, ⟨"r", "c", "p2", "o", 1⟩,
        ⟨"r", "c", "p3", "o", 2⟩] 2).map (fun a => a.2)).flatten
      = [⟨"r", "c", "p1", "o", 0⟩, ⟨"r", "c", "p2", "o", 1⟩,
         ⟨"r", "c", "p3", "o", 2⟩] :=
  (process_tier_slicing _ 2 (by simp) (by omega)).1

/-! ## GroupController: resume and group boundaries -/

theorem lexLe_total (a b : List Char) : lexLe a b || lexLe b a := by
  induction a generalizing b with
  | nil => simp [lexLe]
  | cons x xs ih =>
    cases b with
    | nil => simp [lexLe]
    | cons y ys =>
      simp only [lexLe]
      rcases lt_trichotomy x y with h | rfl | h
      · simp [h]
      · simp [lt_irrefl x, ih ys]
      · simp [h, lt_asymm h]

theorem lexLe_trans (a b c : List Char) (h1 : lexLe a b = true)
    (h2 : lexLe b c = true) : lexLe a c = true := by
  induction a generalizing b c with
  | nil => simp [lexLe]
  | cons x xs ih =>
    cases b with
    | nil => simp [lexLe] at h1
    | cons y ys =>
      cases c with
      | nil => simp [lexLe] at h2
      | cons z zs =>
        simp only [lexLe] at h1 h2 ⊢
        rcases lt_trichotomy x y with hxy | rfl | hxy
        · rcases lt_trichotomy y z with hyz | rfl | hyz
          · simp [hxy.trans hyz]
          · simp [hxy]
          · simp [hyz, lt_asymm hyz] at h2
        · rcases lt_trichotomy x z with hxz | rfl | hxz
          · simp [hxz]
          · simp only [lt_irrefl x, if_false] at h1 h2 ⊢
            exact ih ys zs h1 h2
          · simp [hxz, lt_asymm hxz] at h2
        · simp [hxy, lt_asymm hxy] at h1

theorem sortFiles_sorted (files : List String) :
    (sortFiles files).Pairwise (fun a b => lexLe a.data b.data = true) :=
  List.sorted_mergeSort
    (fun a b c hab hbc => lexLe_trans a.data b.data c.data hab hbc)
    (fun a b => lexLe_total a.data b.data) files

theorem currentGroupFiles_sublist (sorted : List String) (g : Int) :
    (currentGroupFiles sorted g).Sublist sorted := by
  unfold currentGroupFiles pySlice
  exact (List.take_sublist _ _).trans (List.drop_sublist _ _)

/-- Claim C3: a re-run of the group driver processes exactly the files
of the group whose basename is not in the loaded completed set, in
ascending filename order (the processed list is a filtered slice of the
lexicographically sorted file list, hence itself sorted), and when no
file remains the driver reports the group already complete and runs no
per-partition loop. -/
theorem resume_filters_completed (parquetFiles completedFiles : List String)
    (groupId : Int) (presult : Nat → String → PartitionResult) :
    (∀ processed appended totals,
      downloadGroupFilesMp parquetFiles completedFiles groupId presult
          = .ran processed appended totals →
      processed = (currentGroupFiles (sortFiles parquetFiles) groupId).filter
          (fun f => !(completedFiles.contains (basename f))) ∧
      (∀ f ∈ processed, ¬ basename f ∈ completedFiles) ∧
      processed.Pairwise (fun a b => lexLe a.data b.data = true)) ∧
    (sortFiles parquetFiles ≠ [] →
     groupId < (totalGroups (sortFiles parquetFiles).length : Int) →
     remainingFiles (sortFiles parquetFiles) completedFiles groupId = [] →
     downloadGroupFilesMp parquetFiles completedFiles groupId presult
         = .alreadyComplete) := by
  constructor
  · intro processed appended totals h
    unfold downloadGroupFilesMp at h
    dsimp only at h
    split at h
    · cases h
    · split at h
      · cases h
      · split at h
        · cases h
        · cases h
          refine ⟨rfl, ?_, ?_⟩
          · intro f hf
            have := List.of_mem_filter hf
            simpa [List.elem_iff] using this
          · exact ((sortFiles_sorted parquetFiles).sublist
              (currentGroupFiles_sublist _ _)).filter _
  · intro h1 h2 h3
    unfold downloadGroupFilesMp
    dsimp only
    rw [if_neg h1, if_neg (not_le.mpr h2), if_pos h3]

unseal List.merge List.mergeSort in
theorem resume_filters_completed_witness :
    (["f2.parquet"] : List String)
      = (currentGroupFiles (sortFiles ["f2.parquet", "f1.parquet"]) 0).filter
          (fun f => !((["f1.parquet"] : List String).contains (basename f))) :=
  ((resume_filters_completed ["f2.parquet", "f1.parquet"] ["f1.parquet"] 0
      (fun _ _ => ⟨"x", 0, 3, 1, 5, true, none⟩)).1
    ["f2.parquet"] ["f2.parquet"] ⟨3, 1, 5⟩ (by decide)).1

/-- Claim C4 (amended): for a non-negative `group_id`, group `g` covers
exactly the sorted partitions at indices
`[g*50, min(g*50+50, total))`, and any `group_id ≥ total_groups` is
rejected with no work attempted.  (Negative `group_id`s are *not*
rejected — see the counterexample theorem.) -/
theorem group_boundaries (files completedFiles : List String) (g : Int)
    (presult : Nat → String → PartitionResult) :
    (0 ≤ g → currentGroupFiles (sortFiles files) g
        = ((sortFiles files).drop (g.toNat * filesPerGroup)).take
            (min (g.toNat * filesPerGroup + filesPerGroup)
              (sortFiles files).length - g.toNat * filesPerGroup)) ∧
    (sortFiles files ≠ [] →
     (totalGroups (sortFiles files).length : Int) ≤ g →
     downloadGroupFilesMp files completedFiles g presult
         = .groupOutOfRange) := by
  constructor
  · intro hg
    unfold currentGroupFiles pySlice pyNorm
    simp only [filesPerGroup]
    push_cast
    set xs := sortFiles files with hxs
    set n := xs.length with hn
    have h50 : (0 : Int) ≤ g * 50 := by positivity
    have hb : (0 : Int) ≤ min (g * 50 + 50) (n : Int) := by
      refine le_min (by omega) (by omega)
    rw [if_neg (not_lt.mpr h50), if_neg (not_lt.mpr hb)]
    rcases le_or_lt (g.toNat * 50) n with h | h
    · have e1 : (min (g * 50) (n : Int)).toNat = g.toNat * 50 := by omega
      have e2 : (min (min (g * 50 + 50) (n : Int)) (n : Int)).toNat
          - (min (g * 50) (n : Int)).toNat
          = min (g.toNat * 50 + 50) n - g.toNat * 50 := by omega
      rw [e2, e1]
    · have e1 : (min (g * 50) (n : Int)).toNat = n := by omega
      have e2 : (min (min (g * 50 + 50) (n : Int)) (n : Int)).toNat
          - (min (g * 50) (n : Int)).toNat = 0 := by omega
      rw [e2, e1]
      rw [List.drop_length, List.drop_eq_nil_of_le (by omega)]
      simp
  · intro h1 h2
    unfold downloadGroupFilesMp
    dsimp only
    rw [if_neg h1, if_pos h2]

unseal List.merge List.mergeSort in
theorem group_boundaries_witness :
    currentGroupFiles (sortFiles ["f1.parquet", "f2.parquet", "f3.parquet"]) 0
      = ((sortFiles ["f1.parquet", "f2.parquet", "f3.parquet"]).drop
          (Int.toNat 0 * filesPerGroup)).take
          (min (Int.toNat 0 * filesPerGroup + filesPerGroup)
            (sortFiles ["f1.parquet", "f2.parquet", "f3.parquet"]).length
            - Int.toNat 0 * filesPerGroup) :=
  (group_boundaries ["f1.parquet", "f2.parquet", "f3.parquet"] [] 0
    (fun _ _ => ⟨"x", 0, 0, 0, 0, true, none⟩)).1 (by omega)

unseal List.merge List.mergeSort in
/-- Claim C4, counterexample to "any group_id outside `[0, total_groups)`
— including negative values — is rejected as a usage error and no work
is attempted": with 51 sorted partitions (`total_groups = 2`) and
`group_id = -2`, the guard `group_id >= total_groups` does not fire;
Python's negative slice normalisation turns `[-100:-50]` into the
non-empty range `[0:1)`, so the run processes (and records) partition
`f10` instead of being rejected. -/
theorem negative_group_id_not_rejected :
    downloadGroupFilesMp ((List.range 51).map (fun i => "f" ++ toString (10 + i)))
        [] (-2) (fun _ _ => ⟨"x", 0, 0, 0, 0, true, none⟩)
      = .ran ["f10"] ["f10"] statsZero ∧
    downloadGroupFilesMp ((List.range 51).map (fun i => "f" ++ toString (10 + i)))
        [] (-2) (fun _ _ => ⟨"x", 0, 0, 0, 0, true, none⟩)
      ≠ .groupOutOfRange := by
  constructor
  · decide
  · decide

/-! ## Partition success flag and completion recording -/

/-- Whenever the manifest loads (no internal exception), the partition
result's `success` field is `True` — on every non-exception exit path,
independently of the failed counter. -/
theorem processParquet_ok_success (rows : List ManifestRow)
    (filePath outputDir : String) (startIndex maxProcesses : Nat)
    (res : DownloadTask → FetchResult) (crash : Nat → Option String) :
    (processParquetFileWithDataSlicing (.ok rows) filePath outputDir
        startIndex maxProcesses res crash).success = true := by
  unfold processParquetFileWithDataSlicing
  dsimp only
  split <;> rfl

/-- The driver's per-partition loop appends exactly the basenames of the
files whose partition result came back with `success = True`. -/
theorem runGroupLoop_appended (remaining : List String)
    (presult : Nat → String → PartitionResult) :
    (runGroupLoop remaining presult).1
      = (remaining.enum.filter (fun fi => (presult fi.1 fi.2).success)).map
          (fun fi => basename fi.2) := by
  have key : ∀ (l : List (Nat × String)) (acc : List String × BatchStats),
      (l.foldl (fun acc fi =>
        let r := presult fi.1 fi.2
        if r.success then
          (acc.1 ++ [basename fi.2],
           statsAdd acc.2 ⟨r.successfulDownloads, r.failedDownloads,
             r.totalSize⟩)
        else acc) acc).1
        = acc.1 ++ (l.filter (fun fi => (presult fi.1 fi.2).success)).map
            (fun fi => basename fi.2) := by
    intro l
    induction l with
    | nil => intro acc; simp
    | cons fi l ih =>
      intro acc
      rw [List.foldl_cons]
      dsimp only
      by_cases h : (presult fi.1 fi.2).success
      · rw [if_pos h, ih, List.filter_cons, if_pos (by simpa using h)]
        simp
      · rw [if_neg h, ih, List.filter_cons, if_neg (by simpa using h)]
  simpa using key remaining.enum ([], statsZero)

/-- Claim C1 (amended): for every partition processed without an
internal exception the reported `success` flag is `True` outright — the
source computes no `success = (failed == 0)`; the failed counter is
ignored — and the group driver appends a partition's basename to the
completion record exactly when that flag is `True`.  (Consequently a
partition with failed descriptors *is* recorded complete; see the
counterexample theorem.) -/
theorem partition_completion_recording (rows : List ManifestRow)
    (filePath outputDir : String) (startIndex maxProcesses : Nat)
    (res : DownloadTask → FetchResult) (crash : Nat → Option String)
    (remaining : List String) (presult : Nat → String → PartitionResult) :
    (processParquetFileWithDataSlicing (.ok rows) filePath outputDir
        startIndex maxProcesses res crash).success = true ∧
    (runGroupLoop remaining presult).1
      = (remaining.enum.filter (fun fi => (presult fi.1 fi.2).success)).map
          (fun fi => basename fi.2) :=
  ⟨processParquet_ok_success rows filePath outputDir startIndex maxProcesses
      res crash,
   runGroupLoop_appended remaining presult⟩

unseal List.merge List.mergeSort in
/-- Claim C1, counterexample: a one-row partition whose only fetch fails
is reported with `success = True` and `failed = 1` (so
`success ≠ (failed == 0)`), and the group driver then records that
partition as complete. -/
theorem failed_partition_recorded_complete :
    (processParquetFileWithDataSlicing (.ok [⟨"r", "c", "p.txt"⟩])
        "f.parquet" "/out" 0 1 (fun _ => fetchFailure "404 Client Error")
        (fun _ => none)).success = true ∧
    (processParquetFileWithDataSlicing (.ok [⟨"r", "c", "p.txt"⟩])
        "f.parquet" "/out" 0 1 (fun _ => fetchFailure "404 Client Error")
        (fun _ => none)).failedDownloads = 1 ∧
    (processParquetFileWithDataSlicing (.ok [⟨"r", "c", "p.txt"⟩])
        "f.parquet" "/out" 0 1 (fun _ => fetchFailure "404 Client Error")
        (fun _ => none)).success
      ≠ ((processParquetFileWithDataSlicing (.ok [⟨"r", "c", "p.txt"⟩])
        "f.parquet" "/out" 0 1 (fun _ => fetchFailure "404 Client Error")
        (fun _ => none)).failedDownloads == 0) ∧
    downloadGroupFilesMp ["f.parquet"] [] 0
        (fun _ _ => processParquetFileWithDataSlicing (.ok [⟨"r", "c", "p.txt"⟩])
          "f.parquet" "/out" 0 1 (fun _ => fetchFailure "404 Client Error")
          (fun _ => none))
      = .ran ["f.parquet"] ["f.parquet"] ⟨0, 1, 0⟩ := by
  refine ⟨by decide, by decide, by decide, by decide⟩

/-! ## Process-level crash of a slice -/

theorem statsAdd_left_comm (a b c : BatchStats) :
    statsAdd a (statsAdd b c) = statsAdd b (statsAdd a c) := by
  simp only [statsAdd, BatchStats.mk.injEq]
  omega

/-- Folding counter addition over mapped elements equals adding the
mapped sum to the initial value. -/
theorem foldl_statsAdd_map {α : Type} (f : α → BatchStats) (l : List α)
    (init : BatchStats) :
    l.foldl (fun acc a => statsAdd acc (f a)) init
      = statsAdd init (statsSum (l.map f)) := by
  induction l generalizing init with
  | nil => simp [statsSum, statsAdd_zero]
  | cons a l ih =>
    rw [List.foldl_cons, ih, List.map_cons, statsSum_cons, statsAdd_assoc]

/-- Summing the per-slice results when exactly the process with id `j`
crashes, plus the true statistics of the slices with id `j`, gives the
crash-free total: the crashed slice's contribution is exactly what is
missing from the aggregate. -/
theorem sum_with_crash (L : List (Nat × List DownloadTask))
    (res : DownloadTask → FetchResult) (j : Nat) (msg : String) :
    statsAdd
      (statsSum (L.map (fun a => processDownloadBatch a.2 res (crashOnly j msg a.1))))
      (statsSum ((L.filter (fun a => a.1 = j)).map
        (fun a => processDownloadBatch a.2 res none)))
    = statsSum (L.map (fun a => processDownloadBatch a.2 res none)) := by
  induction L with
  | nil => simp [statsSum, statsAdd, statsZero]
  | cons a L ih =>
    by_cases ha : a.1 = j
    · have hfilter : ((a :: L).filter (fun a => a.1 = j))
          = a :: L.filter (fun a => a.1 = j) := by
        simp [List.filter_cons, ha]
      have hcrash : processDownloadBatch a.2 res (crashOnly j msg a.1)
          = statsZero := by
        unfold crashOnly processDownloadBatch
        rw [if_pos ha]
      rw [hfilter]
      simp only [List.map_cons, statsSum_cons]
      rw [hcrash, zero_statsAdd, ← ih, statsAdd_left_comm]
    · have hfilter : ((a :: L).filter (fun a => a.1 = j))
          = L.filter (fun a => a.1 = j) := by
        simp [List.filter_cons, ha]
      have hok : processDownloadBatch a.2 res (crashOnly j msg a.1)
          = processDownloadBatch a.2 res none := by
        unfold crashOnly
        rw [if_neg ha]
      rw [hfilter]
      simp only [List.map_cons, statsSum_cons]
      rw [hok, ← ih, statsAdd_assoc]

/-- Claim C9: when one slice's batch handler raises at the process
level, the `except` arm returns all-zero counters with no error
indication — the same value a normally processed empty batch returns —
so the slice's statistics are silently lost from the parent's aggregate
(adding back the slice's true statistics reconstructs the crash-free
total), while the partition run still finishes with `success = True`. -/
theorem process_crash_silently_lost (ts tasks : List DownloadTask)
    (p : Nat) (res : DownloadTask → FetchResult) (j : Nat) (msg : String)
    (init : BatchStats) (rows : List ManifestRow)
    (filePath outputDir : String) (startIndex : Nat) :
    processDownloadBatch ts res (some msg) = statsZero ∧
    processDownloadBatch ts res (some msg)
        = processDownloadBatch [] res none ∧
    statsAdd (multiProcessStats init tasks p res (crashOnly j msg))
        (statsSum (((processArgs tasks p).filter (fun a => a.1 = j)).map
          (fun a => processDownloadBatch a.2 res none)))
      = multiProcessStats init tasks p res (fun _ => none) ∧
    (processParquetFileWithDataSlicing (.ok rows) filePath outputDir
        startIndex p res (crashOnly j msg)).success = true := by
  refine ⟨rfl, rfl, ?_, processParquet_ok_success rows filePath outputDir
    startIndex p res (crashOnly j msg)⟩
  unfold multiProcessStats
  dsimp only
  have h1 : (processArgs tasks p).foldl
      (fun acc a => statsAdd acc
        (processDownloadBatch a.2 res (crashOnly j msg a.1))) init
      = statsAdd init (statsSum ((processArgs tasks p).map
          (fun a => processDownloadBatch a.2 res (crashOnly j msg a.1)))) :=
    foldl_statsAdd_map _ _ _
  have h2 : (processArgs tasks p).foldl
      (fun acc a => statsAdd acc (processDownloadBatch a.2 res none)) init
      = statsAdd init (statsSum ((processArgs tasks p).map
          (fun a => processDownloadBatch a.2 res none))) :=
    foldl_statsAdd_map _ _ _
  rw [h1, h2, statsAdd_assoc, sum_with_crash]

/-! ## CompletionRecord round-trip -/

theorem splitOnChar_sep (c : Char) (f rest : List Char) (hf : c ∉ f) :
    splitOnChar c (f ++ c :: rest) = f :: splitOnChar c rest := by
  induction f with
  | nil => simp [splitOnChar]
  | cons d ds ih =>
    have hd : ¬ d = c := fun h => hf (h ▸ List.mem_cons_self d ds)
    have hds : c ∉ ds := fun h => hf (List.mem_cons_of_mem d h)
    rw [List.cons_append]
    simp only [splitOnChar]
    rw [if_neg hd, ih hds]

/-- The record file produced by appending `fs` in order to an initially
absent file. -/
theorem foldl_save (fs : List (List Char)) (acc : List Char) :
    fs.foldl saveCompletedFile acc
      = acc ++ (fs.map (fun f => f ++ ['\n'])).flatten := by
  induction fs generalizing acc with
  | nil => simp
  | cons f fs ih =>
    rw [List.foldl_cons, ih]
    simp [saveCompletedFile, List.append_assoc]

theorem splitOnChar_record (fs : List (List Char))
    (h : ∀ f ∈ fs, '\n' ∉ f) :
    splitOnChar '\n' ((fs.map (fun f => f ++ ['\n'])).flatten)
      = fs ++ [[]] := by
  induction fs with
  | nil => rfl
  | cons f fs ih =>
    rw [List.map_cons, List.flatten_cons, List.append_assoc,
      List.singleton_append,
      splitOnChar_sep '\n' f _ (h f (List.mem_cons_self f fs)),
      ih (fun g hg => h g (List.mem_cons_of_mem f hg))]
    rfl

theorem pyStrip_nil : pyStrip [] = [] := rfl

/-- Reading back a record built purely by `save_completed_file` appends
of well-formed filenames recovers exactly those filenames. -/
theorem load_of_saves (fs : List (List Char))
    (h : ∀ f ∈ fs, goodFilename f) :
    loadCompletedFiles (some (fs.foldl saveCompletedFile [])) = fs := by
  unfold loadCompletedFiles
  rw [foldl_save, List.nil_append]
  dsimp only
  rw [splitOnChar_record fs (fun f hf => (h f hf).2.1)]
  rw [List.map_append]
  have hmap : fs.map pyStrip = fs := by
    have : fs.map pyStrip = fs.map id :=
      List.map_congr_left (fun f hf => (h f hf).2.2)
    rw [this, List.map_id]
  rw [hmap]
  rw [List.filter_append]
  have hkeep : fs.filter (fun l => l ≠ []) = fs :=
    List.filter_eq_self.mpr (fun f hf => by
      simpa using (h f hf).1)
  rw [hkeep]
  simp [pyStrip_nil]

/-- Claim C10: the completion record is an additive-only round-trip —
after appending a well-formed filename (non-empty, newline-free, no
leading or trailing whitespace) with `save_completed_file`, reading the
file back with `load_completed_files` yields a set containing that
filename, and every well-formed filename appended earlier is still in
the loaded set. -/
theorem completion_record_roundtrip (prev : List (List Char))
    (f : List Char) (hf : goodFilename f)
    (hprev : ∀ g ∈ prev, goodFilename g) :
    f ∈ loadCompletedFiles
        (some ((prev ++ [f]).foldl saveCompletedFile [])) ∧
    ∀ g ∈ prev, g ∈ loadCompletedFiles
        (some ((prev ++ [f]).foldl saveCompletedFile [])) := by
  have hall : ∀ g ∈ prev ++ [f], goodFilename g := by
    intro g hg
    rcases List.mem_append.mp hg with hg | hg
    · exact hprev g hg
    · rcases List.mem_singleton.mp hg with rfl
      exact hf
  rw [load_of_saves (prev ++ [f]) hall]
  constructor
  · exact List.mem_append.mpr (Or.inr (List.mem_singleton.mpr rfl))
  · exact fun g hg => List.mem_append.mpr (Or.inl hg)

theorem completion_record_roundtrip_witness :
    "b.parquet".data ∈ loadCompletedFiles
        (some ((["a.parquet".data] ++ ["b.parquet".data]).foldl
          saveCompletedFile [])) :=
  (completion_record_roundtrip ["a.parquet".data] "b.parquet".data
    (by decide) (by decide)).1

end Oprover
